import Mathlib

/-!
Verification of the game-thread decision engine and reconciliation logic of the
nyknicks sidebar/game-thread bot (`game_thread_bot.py`, `sidebarbot.py`).

The Python code is shallowly embedded: JSON feeds become structures, Python
strings become `String`, instants become `Int` seconds, Python list indexing
(with its negative-index wrap-around) becomes `pyGet`, string truthiness
becomes `pyBool`, `str.find` / `str.replace` / slices become `pyFind` /
`pyReplace` / `pySliceChars`, and `random.choice` becomes `pyChoice` over an
injected index.  Fallible code (Python `IndexError`) returns `Except`.
-/

/-! ## Python-semantics helpers -/

/-- Python truthiness of a string: `bool(s)` is true iff `s` is non-empty. -/
def pyBool (s : String) : Bool := !(s.data.isEmpty)

/-- Python list indexing `l[i]`: negative indices count from the end
(`l[-1]` is the last element); a `none` result is an `IndexError`. -/
def pyGet {α : Type} (l : List α) (i : Int) : Option α :=
  let j : Int := if i < 0 then (l.length : Int) + i else i
  if 0 ≤ j then l.get? j.toNat else Option.none

/-- Python slice `l[a:b]` for non-negative bounds. -/
def pySliceChars {α : Type} (l : List α) (a b : Nat) : List α :=
  (l.take b).drop a

/-- Python `s.startswith(q)`. -/
def startswith (s q : String) : Bool := q.data.isPrefixOf s.data

/-- Python `s.strip()`: remove leading and trailing whitespace. -/
def strip (s : String) : String :=
  ⟨((s.data.dropWhile Char.isWhitespace).reverse.dropWhile Char.isWhitespace).reverse⟩

/-- Python `random.choice(l)` where the random source is injected as an
index `r`; every value of `r` selects some element of a non-empty `l`. -/
def pyChoice (l : List String) (r : Nat) : String := l.getD (r % l.length) ""

/-! ## Data model (schedule feed, `game_thread_bot.py`) -/

/-- The fields of a schedule-feed game record that the classifier reads:
`startTimeUTC` (parsed to seconds), and the two teams' score strings. -/
structure Game where
  gameId : String
  startTimeUTC : Int
  vScore : String
  hScore : String
deriving DecidableEq

/-- The schedule feed: `league.lastStandardGamePlayedIndex` cursor plus the
ordered `league.standard` game array. -/
structure Schedule where
  lastStandardGamePlayedIndex : Int
  standard : List Game
deriving DecidableEq

/-- The decision output of `_get_current_game` (the source class `Action`;
renamed here because `Action` already exists in Mathlib). -/
inductive BotAction where
  | DO_GAME_THREAD
  | DO_POST_GAME_THREAD
  | DO_NOTHING
deriving DecidableEq

/-- `MAX_POST_AGE_HOURS = 6` from the source, in seconds. -/
def maxPostAgeSecs : Int := 6 * 3600

/-- Pre-game unscored check, line 110 of the source:
`bool(game['vTeam']['score']) or bool(game['hTeam']['score'])`. -/
def preHasScore (v h : String) : Bool := pyBool v || pyBool h

/-- Post-game scored check, line 118 of the source:
`bool(game['vTeam']['score'] + game['hTeam']['score'])` (string concatenation
then truthiness). -/
def postHasScore (v h : String) : Bool := pyBool (v ++ h)

/-- `preHasScore` applied to a game's two score fields. -/
def preHasScoreG (g : Game) : Bool := preHasScore g.vScore g.hScore

/-- `postHasScore` applied to a game's two score fields. -/
def postHasScoreG (g : Game) : Bool := postHasScore g.vScore g.hScore

/-- The tail of `_get_current_game`: read `games[last_played_idx]` (an
out-of-range read is an `IndexError`) and apply the post-game rule
`gametime + 6h >= now and has_score`, else do nothing. -/
def postGameCheck (games : List Game) (idx : Int) (now : Int) :
    Except String (BotAction × Option Game) :=
  match pyGet games idx with
  | Option.none => Except.error "IndexError"
  | Option.some game =>
    if now ≤ game.startTimeUTC + maxPostAgeSecs ∧ postHasScoreG game = true then
      Except.ok (BotAction.DO_POST_GAME_THREAD, Option.some game)
    else
      Except.ok (BotAction.DO_NOTHING, Option.none)

/-- `GameThreadBot._get_current_game`: adjust the cursor by the manual
postponement offset, try the pre-game rule on `games[idx + 1]` (guarded by
`len(games) > idx + 1`), then fall through to the post-game rule on
`games[idx]`. -/
def get_current_game (schedule : Schedule) (num_games_postponed : Int)
    (now : Int) : Except String (BotAction × Option Game) :=
  let last_played_idx := schedule.lastStandardGamePlayedIndex + num_games_postponed
  let games := schedule.standard
  if last_played_idx + 1 < (games.length : Int) then
    match pyGet games (last_played_idx + 1) with
    | Option.none => Except.error "IndexError"
    | Option.some game =>
      if game.startTimeUTC - 3600 ≤ now ∧ preHasScoreG game = false then
        Except.ok (BotAction.DO_GAME_THREAD, Option.some game)
      else
        postGameCheck games last_played_idx now
  else
    postGameCheck games last_played_idx now

/-! ## Thread reconciler (`_create_or_update_game_thread`) -/

/-- `GAME_THREAD_PREFIX` from the source (the name is adjusted here). -/
def gameThreadTag : String := "[Game Thread]"

/-- `POST_GAME_PREFIX` from the source (the name is adjusted here). -/
def postGameTag : String := "[Post Game Thread]"

/-- The phase-specific title marker chosen at line 628 of the source:
`q = GAME_THREAD_PREFIX if act == Action.DO_GAME_THREAD else POST_GAME_PREFIX`. -/
def threadTag (act : BotAction) : String :=
  if act = BotAction.DO_GAME_THREAD then gameThreadTag else postGameTag

/-- A reddit submission as the reconciler reads it from `subreddit.new()`:
title, body text, author name and creation instant (seconds). -/
structure Submission where
  title : String
  selftext : String
  author : String
  created_utc : Int
deriving DecidableEq

/-- `is_obsolete` from line 632: the post was created more than
`MAX_POST_AGE_HOURS` before `now`. -/
def is_obsolete (now : Int) (s : Submission) : Bool :=
  decide (s.created_utc + maxPostAgeSecs < now)

/-- The selection predicate of the scan loop (lines 629-636): title starts
with the phase marker, the author is the bot account, and the post is not
obsolete. -/
def matchesBot (q user : String) (now : Int) (s : Submission) : Bool :=
  startswith s.title q && (s.author == user) && !(is_obsolete now s)

/-- The scan over the recent-posts feed: the first submission satisfying
`matchesBot` (the loop breaks at the first hit). -/
def findThread (q user : String) (now : Int) (posts : List Submission) :
    Option Submission :=
  posts.find? (matchesBot q user now)

/-- What the reconciler reports (via its log lines). -/
inductive ThreadOutcome where
  | created
  | unchanged
  | updated
deriving DecidableEq

/-- The side effect the reconciler performs against reddit. -/
inductive ThreadEffect where
  | submitNew (title body : String)
  | editBody (target : Submission) (newBody : String)
  | noEffect
deriving DecidableEq

/-- `GameThreadBot._create_or_update_game_thread`: scan the feed for an
existing thread for this phase; if none, submit (and pin) a new post; if the
stripped bodies agree, do nothing; otherwise edit the body in place. -/
def create_or_update_game_thread (act : BotAction) (title body user : String)
    (now : Int) (posts : List Submission) : ThreadOutcome × ThreadEffect :=
  match findThread (threadTag act) user now posts with
  | Option.none => (ThreadOutcome.created, ThreadEffect.submitNew title body)
  | Option.some thread =>
    if strip thread.selftext = strip body then
      (ThreadOutcome.unchanged, ThreadEffect.noEffect)
    else
      (ThreadOutcome.updated, ThreadEffect.editBody thread body)

/-- The semantics of the `thread.edit(body)` call on line 645: the
submission's body is replaced by the new text and no other field changes. -/
def applyEdit (s : Submission) (newBody : String) : Submission :=
  { s with selftext := newBody }

/-! ## Post-game title rendering (`_build_defeat_synonym`) -/

/-- `DEFEAT_SYNONYMS` from the source.  The source list has a missing comma
between the literals for "massacre" and "obliterate", so Python concatenates
the two adjacent string literals into the single element
"massacreobliterate" and the list has 16 entries. -/
def DEFEAT_SYNONYMS : List String :=
  ["defeat", "beat", "triumph over", "blow out", "level out", "destroy",
   "crush", "walk all over", "exterminate", "slaughter", "massacreobliterate",
   "eviscerate", "annihilate", "edge out", "steal one against",
   "hang on to defeat"]

/-- `GameThreadBot._build_defeat_synonym`: pick a defeat verb from a
margin-dependent slice of `DEFEAT_SYNONYMS`.  `home_url_name` is
`teams[hTeam.teamId].urlName`, `hscore`/`vscore` are the parsed scores, and
`r` is the injected random source consumed by `random.choice`. -/
def build_defeat_synonym (home_url_name : String) (hscore vscore : Int)
    (r : Nat) : String :=
  let knicks_win : Bool :=
    (home_url_name == "knicks" && decide (hscore > vscore)) ||
    (home_url_name != "knicks" && decide (vscore > hscore))
  if knicks_win then
    if |hscore - vscore| < 3 then pyChoice (pySliceChars DEFEAT_SYNONYMS 14 16) r
    else if |hscore - vscore| < 6 then pyChoice (DEFEAT_SYNONYMS.drop 15) r
    else if |hscore - vscore| > 40 then pyChoice (pySliceChars DEFEAT_SYNONYMS 9 14) r
    else if |hscore - vscore| > 20 then pyChoice (pySliceChars DEFEAT_SYNONYMS 3 9) r
    else pyChoice (DEFEAT_SYNONYMS.take 3) r
  else pyChoice (DEFEAT_SYNONYMS.take 2) r

/-! ## Line-score rendering (`_build_linescore` / `_points`) -/

/-- `GameThreadBot._points`: the cell text for one period.  `linescore` is the
list of per-period score strings; a period with no entry shows "-", and a
period that reports "0" but lies beyond the current period of a non-overtime
game also shows "-". -/
def points (linescore : List String) (current_period requested_period : Nat) :
    String :=
  let pts : String :=
    if requested_period - 1 < linescore.length then
      linescore.getD (requested_period - 1) "-"
    else "-"
  if pts == "0" && decide (requested_period > current_period) &&
      decide (current_period ≤ 4) then "-"
  else pts

/-- The period cells produced by the loop of `_build_linescore`
(`for i in range(0, max(4, num_periods))`, cell `_points(score, current, i+1)`). -/
def linescoreCells (score : List String) (current : Nat) : List String :=
  (List.range (max 4 score.length)).map (fun i => points score current (i + 1))

/-- `GameThreadBot._build_linescore`, reduced to its period cells: `none`
when the linescore is empty, otherwise the road and home cell rows. -/
def build_linescore (current : Nat) (home_score road_score : List String) :
    Option (List String × List String) :=
  if home_score.length = 0 then Option.none
  else Option.some (linescoreCells road_score current, linescoreCells home_score current)

/-! ## Sidebar splice (`sidebarbot.update_reddit_descr`) -/

/-- Python `s.find(pat)` on character lists: index of the first occurrence of
`pat`, or `none` for Python's `-1`. -/
def findSub (pat : List Char) : List Char → Option Nat
  | [] => if pat.isPrefixOf ([] : List Char) then Option.some 0 else Option.none
  | c :: rest =>
    if pat.isPrefixOf (c :: rest) then Option.some 0
    else (findSub pat rest).map (· + 1)

/-- Python `s.find(pat)` on strings. -/
def pyFind (s pat : String) : Option Nat := findSub pat.data s.data

/-- Python `s.replace('', rep)`: `rep` is interleaved before every character
and appended at the end. -/
def replaceInterleave (rep : List Char) : List Char → List Char
  | [] => rep
  | c :: rest => rep ++ c :: replaceInterleave rep rest

/-- The left-to-right non-overlapping replacement scan of Python
`s.replace(pat, rep)` for non-empty `pat`; the fuel argument only bounds the
recursion and never runs out when it starts at `s.length`. -/
def replaceFuel (pat rep : List Char) : Nat → List Char → List Char
  | _, [] => []
  | 0, s => s
  | fuel + 1, c :: rest =>
    if pat.isPrefixOf (c :: rest) then
      rep ++ replaceFuel pat rep fuel (rest.drop (pat.length - 1))
    else
      c :: replaceFuel pat rep fuel rest

/-- Python `s.replace(pat, rep)` on character lists (all occurrences). -/
def pyReplaceChars (s pat rep : List Char) : List Char :=
  if pat = [] then replaceInterleave rep s else replaceFuel pat rep s.length s

/-- Python `s.replace(pat, rep)` on strings. -/
def pyReplace (s pat rep : String) : String := ⟨pyReplaceChars s.data pat.data rep.data⟩

/-- The start marker `[](#Start{marker})` of `update_reddit_descr`. -/
def startMarker (marker : String) : String := "[](#Start" ++ marker ++ ")"

/-- The end marker `[](#End{marker})` of `update_reddit_descr`. -/
def endMarker (marker : String) : String := "[](#End" ++ marker ++ ")"

/-- `sidebarbot.update_reddit_descr`: locate the first start and end markers;
if either is absent return the description unchanged, otherwise replace every
occurrence of the slice from the start marker through the end of the end
marker with the freshly spliced block. -/
def update_reddit_descr (descr text marker : String) : String :=
  let start_marker := startMarker marker
  let end_marker := endMarker marker
  match pyFind descr start_marker, pyFind descr end_marker with
  | Option.some start, Option.some stop =>
    let new_text := start_marker ++ "\n\n" ++ text ++ "\n\n" ++ end_marker
    pyReplace descr ⟨pySliceChars descr.data start (stop + end_marker.length)⟩ new_text
  | _, _ => descr


/-- The spliced block `f'{start_marker}\n\n{text}\n\n{end_marker}'` that
`update_reddit_descr` writes between the markers. -/
def splicedBlock (text marker : String) : String :=
  startMarker marker ++ "\n\n" ++ text ++ "\n\n" ++ endMarker marker

/-- `pat` occurs as a contiguous block of `s` at position `i`. -/
def occursAt (pat s : List Char) (i : Nat) : Prop := pat <+: s.drop i

instance occursAtDecidable (pat s : List Char) (i : Nat) : Decidable (occursAt pat s i) :=
  inferInstanceAs (Decidable (pat <+: s.drop i))

/-! ## Shared helper lemmas -/

/-- `random.choice` over a non-empty list always yields an element of it. -/
theorem pyChoice_mem (l : List String) (r : Nat) (h : 0 < l.length) :
    pyChoice l r ∈ l := by
  unfold pyChoice
  have hlt : r % l.length < l.length := Nat.mod_lt _ h
  rw [List.getD_eq_getElem?_getD, List.getElem?_eq_getElem hlt]
  exact List.getElem_mem hlt

/-- Emptiness of a list concatenation. -/
theorem isEmpty_append_list {α : Type} (a b : List α) :
    (a ++ b).isEmpty = (a.isEmpty && b.isEmpty) := by
  cases a <;> simp [List.isEmpty]

/-- Truthiness of a concatenation is the disjunction of truthinesses. -/
theorem pyBool_append (v h : String) : pyBool (v ++ h) = (pyBool v || pyBool h) := by
  simp [pyBool, String.data_append, isEmpty_append_list, Bool.not_and]

/-- Python indexing at a non-negative index is plain list lookup. -/
theorem pyGet_nonneg {α : Type} (l : List α) (i : Int) (h : 0 ≤ i) :
    pyGet l i = l.get? i.toNat := by
  simp only [pyGet]
  rw [if_neg (show ¬ i < 0 by omega), if_pos h]

/-- A non-negative in-range Python index hits an element. -/
theorem pyGet_some_of_lt {α : Type} (l : List α) (i : Int) (h0 : 0 ≤ i)
    (h1 : i < (l.length : Int)) : ∃ a, pyGet l i = Option.some a := by
  rw [pyGet_nonneg l i h0]
  have hlt : i.toNat < l.length := by omega
  exact ⟨l.get ⟨i.toNat, hlt⟩, List.get?_eq_get hlt⟩

/-- A non-negative out-of-range Python index is an `IndexError`. -/
theorem pyGet_none_of_le {α : Type} (l : List α) (i : Int) (h0 : 0 ≤ i)
    (h : (l.length : Int) ≤ i) : pyGet l i = Option.none := by
  rw [pyGet_nonneg l i h0]
  exact List.get?_eq_none.mpr (by omega)

/-! ## Claim C1 -/

/-- Claim C1: reconciler idempotence.  If the scan of the recent-posts feed
finds no post matching the phase marker, author and freshness window, the
reconciler reports `created` and performs exactly one submit; a second
invocation with the same inputs whose feed now also contains the post created
by the first invocation (marker-matching title, same author, age within the
window, identical body) reports `unchanged` and performs no create or edit. -/
theorem c1_reconciler_idempotence
    (act : BotAction) (title body user : String) (now createdAt : Int)
    (posts : List Submission)
    (hnone : findThread (threadTag act) user now posts = Option.none)
    (htitle : startswith title (threadTag act) = true)
    (hfresh : ¬ (createdAt + maxPostAgeSecs < now)) :
    create_or_update_game_thread act title body user now posts =
      (ThreadOutcome.created, ThreadEffect.submitNew title body) ∧
    create_or_update_game_thread act title body user now
        ({ title := title, selftext := body, author := user,
           created_utc := createdAt } :: posts) =
      (ThreadOutcome.unchanged, ThreadEffect.noEffect) := by
  constructor
  · unfold create_or_update_game_thread
    rw [hnone]
  · unfold create_or_update_game_thread findThread
    have hm : matchesBot (threadTag act) user now
        { title := title, selftext := body, author := user,
          created_utc := createdAt } = true := by
      simp [matchesBot, is_obsolete, htitle, hfresh]
    rw [List.find?_cons_of_pos _ hm]
    simp

/-- Claim C1 witness. -/
theorem c1_witness :
    create_or_update_game_thread BotAction.DO_GAME_THREAD "[Game Thread] K" "B"
        "nyknicks-automod" 1000 [] =
      (ThreadOutcome.created, ThreadEffect.submitNew "[Game Thread] K" "B") ∧
    create_or_update_game_thread BotAction.DO_GAME_THREAD "[Game Thread] K" "B"
        "nyknicks-automod" 1000
        [{ title := "[Game Thread] K", selftext := "B",
           author := "nyknicks-automod", created_utc := 1000 }] =
      (ThreadOutcome.unchanged, ThreadEffect.noEffect) :=
  c1_reconciler_idempotence BotAction.DO_GAME_THREAD "[Game Thread] K" "B"
    "nyknicks-automod" 1000 1000 [] (by decide) (by decide) (by decide)

/-! ## Claim C2 -/

/-- Claim C2: staleness exclusion.  A feed post whose title starts with the
phase marker and whose author matches the bot is ignored by the scan whenever
it was created more than 6 hours before `now`; if every marker/author match
in the feed is that stale, the reconciler creates a new post.  A matching
post exactly 6 hours old is still accepted (the window is inclusive), so the
outcome is then not `created`. -/
theorem c2_staleness_exclusion
    (act : BotAction) (title body user : String) (now : Int)
    (posts : List Submission) (p : Submission)
    (hstale : ∀ s ∈ posts, startswith s.title (threadTag act) = true →
      s.author = user → s.created_utc + maxPostAgeSecs < now)
    (hpt : startswith p.title (threadTag act) = true)
    (hpa : p.author = user)
    (hpc : p.created_utc + maxPostAgeSecs = now) :
    create_or_update_game_thread act title body user now posts =
      (ThreadOutcome.created, ThreadEffect.submitNew title body) ∧
    findThread (threadTag act) user now [p] = Option.some p ∧
    (create_or_update_game_thread act title body user now [p]).1 ≠
      ThreadOutcome.created := by
  have hfound : findThread (threadTag act) user now [p] = Option.some p := by
    have hm : matchesBot (threadTag act) user now p = true := by
      simp [matchesBot, is_obsolete, hpt, hpa]
      omega
    unfold findThread
    rw [List.find?_cons_of_pos _ hm]
  refine ⟨?_, hfound, ?_⟩
  · unfold create_or_update_game_thread
    have hnone : findThread (threadTag act) user now posts = Option.none := by
      unfold findThread
      rw [List.find?_eq_none]
      intro s hs hm
      simp only [matchesBot, is_obsolete, Bool.and_eq_true, Bool.not_eq_true',
        decide_eq_false_iff_not, beq_iff_eq, not_lt] at hm
      exact absurd (hstale s hs hm.1.1 hm.1.2) (by omega)
    rw [hnone]
  · unfold create_or_update_game_thread
    rw [hfound]
    by_cases hb : strip p.selftext = strip body <;> simp [hb]

/-- Claim C2 witness. -/
theorem c2_witness :
    create_or_update_game_thread BotAction.DO_POST_GAME_THREAD "[Post Game Thread] W"
        "B" "nyknicks-automod" 100000
        [⟨"[Post Game Thread] old", "old", "nyknicks-automod", 0⟩] =
      (ThreadOutcome.created, ThreadEffect.submitNew "[Post Game Thread] W" "B") ∧
    findThread (threadTag BotAction.DO_POST_GAME_THREAD) "nyknicks-automod" 100000
        [⟨"[Post Game Thread] boundary", "old", "nyknicks-automod", 100000 - maxPostAgeSecs⟩] =
      Option.some ⟨"[Post Game Thread] boundary", "old", "nyknicks-automod",
        100000 - maxPostAgeSecs⟩ ∧
    (create_or_update_game_thread BotAction.DO_POST_GAME_THREAD "[Post Game Thread] W"
        "B" "nyknicks-automod" 100000
        [⟨"[Post Game Thread] boundary", "old", "nyknicks-automod",
          100000 - maxPostAgeSecs⟩]).1 ≠ ThreadOutcome.created :=
  c2_staleness_exclusion BotAction.DO_POST_GAME_THREAD "[Post Game Thread] W" "B"
    "nyknicks-automod" 100000
    [⟨"[Post Game Thread] old", "old", "nyknicks-automod", 0⟩]
    ⟨"[Post Game Thread] boundary", "old", "nyknicks-automod", 100000 - maxPostAgeSecs⟩
    (by intro s hs h1 h2; simp at hs; subst hs; decide)
    (by decide) (by decide) (by decide)

/-! ## Claim C3 -/

/-- Claim C3: update correctness and frame.  If the scan finds a matching
post whose stripped body differs from the stripped rendered body, the
reconciler reports `updated` and its only effect is editing that post's body
to exactly the rendered body; the edit leaves the title, author and creation
time unchanged. -/
theorem c3_update_frame
    (act : BotAction) (title body user : String) (now : Int)
    (posts : List Submission) (t : Submission)
    (hfind : findThread (threadTag act) user now posts = Option.some t)
    (hdiff : strip t.selftext ≠ strip body) :
    create_or_update_game_thread act title body user now posts =
      (ThreadOutcome.updated, ThreadEffect.editBody t body) ∧
    (applyEdit t body).selftext = body ∧
    (applyEdit t body).title = t.title ∧
    (applyEdit t body).author = t.author ∧
    (applyEdit t body).created_utc = t.created_utc := by
  refine ⟨?_, rfl, rfl, rfl, rfl⟩
  unfold create_or_update_game_thread
  rw [hfind]
  simp [hdiff]

/-- Claim C3 witness. -/
theorem c3_witness :
    create_or_update_game_thread BotAction.DO_GAME_THREAD "[Game Thread] K" "new"
        "nyknicks-automod" 1000
        [⟨"[Game Thread] old title", "old", "nyknicks-automod", 500⟩] =
      (ThreadOutcome.updated,
        ThreadEffect.editBody ⟨"[Game Thread] old title", "old", "nyknicks-automod", 500⟩
          "new") ∧
    (applyEdit ⟨"[Game Thread] old title", "old", "nyknicks-automod", 500⟩ "new").selftext =
      "new" ∧
    (applyEdit ⟨"[Game Thread] old title", "old", "nyknicks-automod", 500⟩ "new").title =
      (⟨"[Game Thread] old title", "old", "nyknicks-automod", 500⟩ : Submission).title ∧
    (applyEdit ⟨"[Game Thread] old title", "old", "nyknicks-automod", 500⟩ "new").author =
      (⟨"[Game Thread] old title", "old", "nyknicks-automod", 500⟩ : Submission).author ∧
    (applyEdit ⟨"[Game Thread] old title", "old", "nyknicks-automod", 500⟩ "new").created_utc =
      (⟨"[Game Thread] old title", "old", "nyknicks-automod", 500⟩ : Submission).created_utc :=
  c3_update_frame BotAction.DO_GAME_THREAD "[Game Thread] K" "new" "nyknicks-automod"
    1000 [⟨"[Game Thread] old title", "old", "nyknicks-automod", 500⟩]
    ⟨"[Game Thread] old title", "old", "nyknicks-automod", 500⟩
    (by decide) (by decide)

/-! ## Claim C6 -/

/-- Claim C6 counterexample: there is no pair of score strings on which the
pre-game OR-of-truthiness check and the post-game concatenate-then-truthiness
check disagree — the two predicates are extensionally equal. -/
theorem c6_counterexample :
    ¬ ∃ v h : String, preHasScore v h ≠ postHasScore v h := by
  intro ⟨v, h, hne⟩
  exact hne (by rw [preHasScore, postHasScore, pyBool_append])

/-- Claim C6 (amended): the two scored checks are written differently
(`bool(v) or bool(h)` versus `bool(v + h)`), but on string score fields they
are extensionally equivalent: they agree on every pair of values. -/
theorem c6_amended_equivalence :
    ∀ v h : String, preHasScore v h = postHasScore v h := by
  intro v h
  rw [preHasScore, postHasScore, pyBool_append]

/-! ## Claim C8 -/

/-- Claim C8 counterexample: for a Knicks win with margin 8 (scores 110-102),
random index 0 draws "defeat", which is in the ordinary subset, not in the
close-win band (`DEFEAT_SYNONYMS[15:]`, per the 3-6 banding) nor in the
narrow band (`DEFEAT_SYNONYMS[14:16]`). -/
theorem c8_counterexample :
    build_defeat_synonym "knicks" 110 102 0 = "defeat" ∧
    "defeat" ∉ DEFEAT_SYNONYMS.drop 15 ∧
    "defeat" ∉ pySliceChars DEFEAT_SYNONYMS 14 16 := by
  decide

/-- Claim C8 (amended): the margin bands actually implemented.  A Knicks win
with margin 8 (for example 110-102) always draws from the ordinary subset
`DEFEAT_SYNONYMS[:3]`; in general a win draws from `DEFEAT_SYNONYMS[14:16]`
when the margin is below 3, from `DEFEAT_SYNONYMS[15:]` when it is 3 to 5,
from `DEFEAT_SYNONYMS[9:14]` above 40, from `DEFEAT_SYNONYMS[3:9]` for 21 to
40, and from `DEFEAT_SYNONYMS[:3]` otherwise (margins 6 to 20); a loss always
draws from the 2-entry ordinary subset `DEFEAT_SYNONYMS[:2]` — for every
value of the injected random source. -/
theorem c8_defeat_margin_bands :
    (∀ r, build_defeat_synonym "knicks" 110 102 r ∈ DEFEAT_SYNONYMS.take 3) ∧
    (∀ home hs vs r,
      ((home == "knicks" && decide (hs > vs)) ||
       (home != "knicks" && decide (vs > hs))) = true →
      (|hs - vs| < 3 →
        build_defeat_synonym home hs vs r ∈ pySliceChars DEFEAT_SYNONYMS 14 16) ∧
      (3 ≤ |hs - vs| → |hs - vs| < 6 →
        build_defeat_synonym home hs vs r ∈ DEFEAT_SYNONYMS.drop 15) ∧
      (40 < |hs - vs| →
        build_defeat_synonym home hs vs r ∈ pySliceChars DEFEAT_SYNONYMS 9 14) ∧
      (20 < |hs - vs| → |hs - vs| ≤ 40 →
        build_defeat_synonym home hs vs r ∈ pySliceChars DEFEAT_SYNONYMS 3 9) ∧
      (6 ≤ |hs - vs| → |hs - vs| ≤ 20 →
        build_defeat_synonym home hs vs r ∈ DEFEAT_SYNONYMS.take 3)) ∧
    (∀ home hs vs r,
      ((home == "knicks" && decide (hs > vs)) ||
       (home != "knicks" && decide (vs > hs))) = false →
      build_defeat_synonym home hs vs r ∈ DEFEAT_SYNONYMS.take 2) := by
  refine ⟨?_, ?_, ?_⟩
  · intro r
    have hc : build_defeat_synonym "knicks" 110 102 r =
        pyChoice (DEFEAT_SYNONYMS.take 3) r := by
      unfold build_defeat_synonym
      norm_num
    rw [hc]
    exact pyChoice_mem _ r (by decide)
  · intro home hs vs r hwin
    unfold build_defeat_synonym
    rw [hwin, if_pos rfl]
    refine ⟨?_, ?_, ?_, ?_, ?_⟩
    · intro h1
      rw [if_pos h1]
      exact pyChoice_mem _ r (by decide)
    · intro h1 h2
      rw [if_neg (by omega), if_pos h2]
      exact pyChoice_mem _ r (by decide)
    · intro h1
      rw [if_neg (by omega), if_neg (by omega), if_pos h1]
      exact pyChoice_mem _ r (by decide)
    · intro h1 h2
      rw [if_neg (by omega), if_neg (by omega), if_neg (by omega), if_pos h1]
      exact pyChoice_mem _ r (by decide)
    · intro h1 h2
      rw [if_neg (by omega), if_neg (by omega), if_neg (by omega),
        if_neg (by omega)]
      exact pyChoice_mem _ r (by decide)
  · intro home hs vs r hwin
    unfold build_defeat_synonym
    rw [hwin]
    simp only [Bool.false_eq_true, if_false]
    exact pyChoice_mem _ r (by decide)

/-- Claim C8 witness. -/
theorem c8_witness :
    build_defeat_synonym "knicks" 110 102 7 ∈ DEFEAT_SYNONYMS.take 3 ∧
    build_defeat_synonym "knicks" 104 102 7 ∈ pySliceChars DEFEAT_SYNONYMS 14 16 ∧
    build_defeat_synonym "nets" 110 102 7 ∈ DEFEAT_SYNONYMS.take 2 :=
  ⟨c8_defeat_margin_bands.1 7,
   (c8_defeat_margin_bands.2.1 "knicks" 104 102 7 (by decide)).1 (by decide),
   c8_defeat_margin_bands.2.2 "nets" 110 102 7 (by decide)⟩

/-! ## Claim C9 -/

/-- Claim C9 counterexample: with current period 2 and linescore entries
"25", "30", "0", "0", period 3 lies past the current-period marker, its
recorded entry is "0", and the table renders "-" rather than that recorded
datum — so the table does not show actual data for periods at or past the
marker (the first conjunct of the claim already demands the "-"). -/
theorem c9_counterexample :
    points ["25", "30", "0", "0"] 2 3 = "-" ∧
    ["25", "30", "0", "0"].getD (3 - 1) "-" = "0" ∧
    ("-" : String) ≠ "0" ∧
    linescoreCells ["25", "30", "0", "0"] 2 = ["25", "30", "-", "-"] := by
  decide

/-- Claim C9 (amended): line-score rendering.  A game in period 2 of a
normal (non-overtime) game renders "-" for periods 3 and 4 and the recorded
scores for periods 1 and 2; the table always spans `max 4 n` period columns,
so at least 4, extending when the linescore has more than 4 entries; a period
at or before the current-period marker always shows its recorded entry; and
once the current period is past 4 (overtime) every recorded period, including
overtime periods beyond 4, shows its actual data. -/
theorem c9_linescore_rendering :
    (∀ s1 s2 : String, linescoreCells [s1, s2, "0", "0"] 2 = [s1, s2, "-", "-"]) ∧
    (∀ (score : List String) (current : Nat),
      (linescoreCells score current).length = max 4 score.length) ∧
    (∀ (score : List String) (current p : Nat), p ≤ current →
      p - 1 < score.length → points score current p = score.getD (p - 1) "-") ∧
    (∀ (score : List String) (current p : Nat), 4 < current →
      p - 1 < score.length → points score current p = score.getD (p - 1) "-") := by
  refine ⟨?_, ?_, ?_, ?_⟩
  · intro s1 s2
    show List.map _ (List.range (max 4 4)) = _
    rw [show max 4 4 = 4 from rfl, show List.range 4 = [0, 1, 2, 3] from rfl]
    simp only [List.map_cons, List.map_nil, points]
    norm_num
  · intro score current
    simp [linescoreCells]
  · intro score current p hp hlen
    unfold points
    rw [if_pos hlen, if_neg ?_]
    simp only [Bool.and_eq_true, decide_eq_true_eq, not_and]
    intro _ hgt
    omega
  · intro score current p hcur hlen
    unfold points
    rw [if_pos hlen, if_neg ?_]
    simp only [Bool.and_eq_true, decide_eq_true_eq, not_and]
    intro _ _
    omega

/-- Claim C9 witness. -/
theorem c9_witness :
    linescoreCells ["25", "30", "0", "0"] 2 = ["25", "30", "-", "-"] ∧
    (linescoreCells ["25", "30", "28", "31", "10"] 5).length = max 4 5 ∧
    points ["25", "30", "28", "31", "10"] 5 5 = ["25", "30", "28", "31", "10"].getD (5 - 1) "-" :=
  ⟨c9_linescore_rendering.1 "25" "30",
   c9_linescore_rendering.2.1 ["25", "30", "28", "31", "10"] 5,
   c9_linescore_rendering.2.2.2 ["25", "30", "28", "31", "10"] 5 5 (by decide) (by decide)⟩

/-! ## Claim C4 -/

/-- Claim C4 counterexample: schedule with cursor 0, game 0 scored (110-102,
started an hour ago), game 1 unscored and starting more than one hour in the
future.  The claim's premises hold for game 1, yet the classifier returns
`(PostGameThread, game 0)` via the fall-through, not `(None, null)`. -/
theorem c4_counterexample :
    get_current_game ⟨0, [⟨"g0", 0, "110", "102"⟩, ⟨"g1", 100000, "", ""⟩]⟩ 0 3600 =
      Except.ok (BotAction.DO_POST_GAME_THREAD, Option.some ⟨"g0", 0, "110", "102"⟩) ∧
    (3600 : Int) < 100000 - 3600 ∧
    (⟨"g1", 100000, "", ""⟩ : Game).vScore = "" ∧
    (⟨"g1", 100000, "", ""⟩ : Game).hScore = "" ∧
    BotAction.DO_POST_GAME_THREAD ≠ BotAction.DO_NOTHING :=
  ⟨rfl, by decide, rfl, rfl, by decide⟩

/-- Claim C4 (amended): pre-game classification.  If the game after the
adjusted cursor exists and both its score fields are empty, then whenever its
start time minus 1 hour is at or before `now` the classifier returns
`(GameThread, that game)`; if it starts more than 1 hour in the future the
pre-game rule does not fire and the result is decided by the post-game rule
on the game at the adjusted cursor — `(PostGameThread, that game)` when it is
scored and started at most 6 hours ago, `(None, null)` otherwise. -/
theorem c4_pregame_classification
    (schedule : Schedule) (off now : Int) (g g' : Game)
    (hidx1 : schedule.lastStandardGamePlayedIndex + off + 1 <
      (schedule.standard.length : Int))
    (hg : pyGet schedule.standard (schedule.lastStandardGamePlayedIndex + off + 1) =
      Option.some g)
    (hv : g.vScore = "") (hh : g.hScore = "")
    (hg' : pyGet schedule.standard (schedule.lastStandardGamePlayedIndex + off) =
      Option.some g') :
    (g.startTimeUTC - 3600 ≤ now →
      get_current_game schedule off now =
        Except.ok (BotAction.DO_GAME_THREAD, Option.some g)) ∧
    (now < g.startTimeUTC - 3600 →
      ((now ≤ g'.startTimeUTC + maxPostAgeSecs ∧ postHasScoreG g' = true) →
        get_current_game schedule off now =
          Except.ok (BotAction.DO_POST_GAME_THREAD, Option.some g')) ∧
      (¬ (now ≤ g'.startTimeUTC + maxPostAgeSecs ∧ postHasScoreG g' = true) →
        get_current_game schedule off now =
          Except.ok (BotAction.DO_NOTHING, Option.none))) := by
  have hunscored : preHasScoreG g = false := by
    simp [preHasScoreG, preHasScore, pyBool, hv, hh]
  constructor
  · intro hsoon
    unfold get_current_game
    rw [if_pos hidx1, hg]
    exact if_pos ⟨hsoon, hunscored⟩
  · intro hlate
    have hfall : get_current_game schedule off now =
        postGameCheck schedule.standard
          (schedule.lastStandardGamePlayedIndex + off) now := by
      unfold get_current_game
      rw [if_pos hidx1, hg]
      exact if_neg (fun hcond => absurd hcond.1 (by omega))
    constructor
    · intro hpost
      rw [hfall]
      unfold postGameCheck
      rw [hg']
      exact if_pos hpost
    · intro hpost
      rw [hfall]
      unfold postGameCheck
      rw [hg']
      exact if_neg hpost

/-- Claim C4 witness. -/
theorem c4_witness :
    get_current_game ⟨10, [⟨"a", 0, "1", "2"⟩, ⟨"b", 0, "1", "2"⟩, ⟨"c", 0, "1", "2"⟩,
        ⟨"d", 0, "1", "2"⟩, ⟨"e", 0, "1", "2"⟩, ⟨"f", 0, "1", "2"⟩, ⟨"g", 0, "1", "2"⟩,
        ⟨"h", 0, "1", "2"⟩, ⟨"i", 0, "1", "2"⟩, ⟨"j", 0, "1", "2"⟩, ⟨"k", 0, "1", "2"⟩,
        ⟨"next", 9000, "", ""⟩]⟩ 0 7200 =
      Except.ok (BotAction.DO_GAME_THREAD, Option.some ⟨"next", 9000, "", ""⟩) :=
  (c4_pregame_classification
    ⟨10, [⟨"a", 0, "1", "2"⟩, ⟨"b", 0, "1", "2"⟩, ⟨"c", 0, "1", "2"⟩,
        ⟨"d", 0, "1", "2"⟩, ⟨"e", 0, "1", "2"⟩, ⟨"f", 0, "1", "2"⟩, ⟨"g", 0, "1", "2"⟩,
        ⟨"h", 0, "1", "2"⟩, ⟨"i", 0, "1", "2"⟩, ⟨"j", 0, "1", "2"⟩, ⟨"k", 0, "1", "2"⟩,
        ⟨"next", 9000, "", ""⟩]⟩ 0 7200 ⟨"next", 9000, "", ""⟩ ⟨"k", 0, "1", "2"⟩
    (by decide) (by decide) (by decide) (by decide) (by decide)).1 (by decide)

/-! ## Claim C5 -/

/-- Claim C5 counterexample: the game at the cursor is scored and started
2 hours ago (within the 6-hour window), but the next game is unscored and
within 1 hour of tip-off, so the pre-game rule fires first and the classifier
returns `(GameThread, next game)` rather than `(PostGameThread, cursor game)`. -/
theorem c5_counterexample :
    get_current_game ⟨0, [⟨"g0", -7200, "110", "102"⟩, ⟨"g1", 1800, "", ""⟩]⟩ 0 0 =
      Except.ok (BotAction.DO_GAME_THREAD, Option.some ⟨"g1", 1800, "", ""⟩) ∧
    postHasScoreG ⟨"g0", -7200, "110", "102"⟩ = true ∧
    (0 : Int) ≤ -7200 + maxPostAgeSecs ∧
    BotAction.DO_GAME_THREAD ≠ BotAction.DO_POST_GAME_THREAD :=
  ⟨rfl, by decide, by decide, by decide⟩

/-- Claim C5 (amended): post-game classification window.  For a non-negative
adjusted cursor whose game is scored, and provided the pre-game rule does not
fire on the following game, the classifier returns `(PostGameThread, that
game)` whenever `now` is at most 6 hours after its start — the boundary at
exactly 6 hours being inclusive — and `(None, null)` once `now` is past the
6-hour boundary (in particular at 6 hours + 1 second). -/
theorem c5_postgame_window
    (schedule : Schedule) (off now : Int) (g : Game)
    (h0 : 0 ≤ schedule.lastStandardGamePlayedIndex + off)
    (hg : pyGet schedule.standard (schedule.lastStandardGamePlayedIndex + off) =
      Option.some g)
    (hscored : postHasScoreG g = true)
    (hpre : ∀ g1, pyGet schedule.standard
        (schedule.lastStandardGamePlayedIndex + off + 1) = Option.some g1 →
      ¬ (g1.startTimeUTC - 3600 ≤ now ∧ preHasScoreG g1 = false)) :
    (now ≤ g.startTimeUTC + maxPostAgeSecs →
      get_current_game schedule off now =
        Except.ok (BotAction.DO_POST_GAME_THREAD, Option.some g)) ∧
    (g.startTimeUTC + maxPostAgeSecs < now →
      get_current_game schedule off now =
        Except.ok (BotAction.DO_NOTHING, Option.none)) := by
  have hfall : get_current_game schedule off now =
      postGameCheck schedule.standard
        (schedule.lastStandardGamePlayedIndex + off) now := by
    unfold get_current_game
    by_cases hguard : schedule.lastStandardGamePlayedIndex + off + 1 <
        (schedule.standard.length : Int)
    · rw [if_pos hguard]
      obtain ⟨g1, hg1⟩ := pyGet_some_of_lt schedule.standard
        (schedule.lastStandardGamePlayedIndex + off + 1) (by omega) hguard
      rw [hg1]
      exact if_neg (hpre g1 hg1)
    · rw [if_neg hguard]
  constructor
  · intro hwin
    rw [hfall]
    unfold postGameCheck
    rw [hg]
    exact if_pos ⟨hwin, hscored⟩
  · intro hpast
    rw [hfall]
    unfold postGameCheck
    rw [hg]
    exact if_neg (fun hcond => absurd hcond.1 (by omega))

/-- Claim C5 witness: the inclusive 6-hour boundary and the 6-hours-plus-one-
second exclusion on a concrete one-game schedule. -/
theorem c5_witness :
    get_current_game ⟨0, [⟨"g0", 0, "110", "102"⟩]⟩ 0 maxPostAgeSecs =
      Except.ok (BotAction.DO_POST_GAME_THREAD, Option.some ⟨"g0", 0, "110", "102"⟩) ∧
    get_current_game ⟨0, [⟨"g0", 0, "110", "102"⟩]⟩ 0 (maxPostAgeSecs + 1) =
      Except.ok (BotAction.DO_NOTHING, Option.none) :=
  ⟨(c5_postgame_window ⟨0, [⟨"g0", 0, "110", "102"⟩]⟩ 0 maxPostAgeSecs
      ⟨"g0", 0, "110", "102"⟩ (by decide) (by decide) (by decide)
      (fun g1 hg1 => by simp [pyGet] at hg1)).1 (by decide),
   (c5_postgame_window ⟨0, [⟨"g0", 0, "110", "102"⟩]⟩ 0 (maxPostAgeSecs + 1)
      ⟨"g0", 0, "110", "102"⟩ (by decide) (by decide) (by decide)
      (fun g1 hg1 => by simp [pyGet] at hg1)).2 (by decide)⟩

/-! ## Claim C7 -/

/-- Claim C7 counterexample: with cursor `-1` on a one-game schedule the
adjusted cursor is outside the array bounds `[0, 1)`, yet the resolver does
not fail: Python's negative indexing wraps `games[-1]` to the last element
and the run returns `(None, null)` without an `IndexError`. -/
theorem c7_counterexample :
    get_current_game ⟨-1, [⟨"g0", 999999, "", ""⟩]⟩ 0 0 =
      Except.ok (BotAction.DO_NOTHING, Option.none) ∧
    ¬ (0 ≤ (-1 : Int) + 0 ∧ (-1 : Int) + 0 < (1 : Int)) :=
  ⟨rfl, by decide⟩

/-- Claim C7 (amended): cursor bounds error for non-negative adjusted
cursors.  When the adjusted cursor `lastPlayedIndex + offset` is
non-negative, the resolution fails with an index-out-of-range error exactly
when the adjusted cursor is at or past the end of the schedule array, and the
failure yields no action; every in-bounds non-negative adjusted cursor
resolves without error. -/
theorem c7_cursor_bounds
    (schedule : Schedule) (off now : Int)
    (h0 : 0 ≤ schedule.lastStandardGamePlayedIndex + off) :
    (get_current_game schedule off now = Except.error "IndexError" ↔
      (schedule.standard.length : Int) ≤ schedule.lastStandardGamePlayedIndex + off) ∧
    (schedule.lastStandardGamePlayedIndex + off < (schedule.standard.length : Int) →
      ∃ r, get_current_game schedule off now = Except.ok r) := by
  have main : ∀ idx : Int, 0 ≤ idx → idx < (schedule.standard.length : Int) →
      ∃ r, postGameCheck schedule.standard idx now = Except.ok r := by
    intro idx hge hlt
    obtain ⟨g, hget⟩ := pyGet_some_of_lt schedule.standard idx hge hlt
    unfold postGameCheck
    rw [hget]
    by_cases hc : now ≤ g.startTimeUTC + maxPostAgeSecs ∧ postHasScoreG g = true
    · exact ⟨_, if_pos hc⟩
    · exact ⟨_, if_neg hc⟩
  by_cases hin : schedule.lastStandardGamePlayedIndex + off <
      (schedule.standard.length : Int)
  · have hok : ∃ r, get_current_game schedule off now = Except.ok r := by
      unfold get_current_game
      by_cases hguard : schedule.lastStandardGamePlayedIndex + off + 1 <
          (schedule.standard.length : Int)
      · rw [if_pos hguard]
        obtain ⟨g1, hg1⟩ := pyGet_some_of_lt schedule.standard
          (schedule.lastStandardGamePlayedIndex + off + 1) (by omega) hguard
        rw [hg1]
        by_cases hc : g1.startTimeUTC - 3600 ≤ now ∧ preHasScoreG g1 = false
        · exact ⟨_, if_pos hc⟩
        · obtain ⟨r, hr⟩ := main _ h0 hin
          exact ⟨r, (if_neg hc).trans hr⟩
      · rw [if_neg hguard]
        exact main _ h0 hin
    obtain ⟨r, hr⟩ := hok
    refine ⟨⟨fun herr => ?_, fun hout => absurd hin (by omega)⟩, fun _ => ⟨r, hr⟩⟩
    rw [hr] at herr
    exact absurd herr (by simp)
  · have herr : get_current_game schedule off now = Except.error "IndexError" := by
      unfold get_current_game
      rw [if_neg (by omega)]
      unfold postGameCheck
      rw [pyGet_none_of_le schedule.standard _ h0 (by omega)]
    refine ⟨⟨fun _ => by omega, fun _ => herr⟩, fun hlt => absurd hlt (by omega)⟩

/-- Claim C7 witness: an out-of-range non-negative cursor fails, an in-range
one succeeds. -/
theorem c7_witness :
    (get_current_game ⟨5, [⟨"g0", 0, "", ""⟩]⟩ 0 0 = Except.error "IndexError" ↔
      ((1 : Nat) : Int) ≤ 5 + 0) ∧
    (get_current_game ⟨0, [⟨"g0", 0, "", ""⟩]⟩ 0 0 = Except.error "IndexError" ↔
      ((1 : Nat) : Int) ≤ 0 + 0) :=
  ⟨(c7_cursor_bounds ⟨5, [⟨"g0", 0, "", ""⟩]⟩ 0 0 (by decide)).1,
   (c7_cursor_bounds ⟨0, [⟨"g0", 0, "", ""⟩]⟩ 0 0 (by decide)).1⟩

/-! ## Splice helper lemmas (claim C10) -/

/-- Taking at most the left part of an append ignores the right part. -/
theorem take_append_of_le {α : Type} (n : Nat) (x t : List α) (h : n ≤ x.length) :
    (x ++ t).take n = x.take n := by
  induction x generalizing n with
  | nil =>
    have : n = 0 := by simpa using h
    simp [this]
  | cons c cs ih =>
    cases n with
    | zero => simp
    | succ m => simp [ih m (by simpa using h)]

/-- Dropping within the left part of an append keeps the right part. -/
theorem drop_append_of_le {α : Type} (n : Nat) (x t : List α) (h : n ≤ x.length) :
    (x ++ t).drop n = x.drop n ++ t := by
  induction x generalizing n with
  | nil =>
    have : n = 0 := by simpa using h
    simp [this]
  | cons c cs ih =>
    cases n with
    | zero => simp
    | succ m => simp [ih m (by simpa using h)]

/-- `findSub` returns exactly the first occurrence position. -/
theorem findSub_eq_some_iff (pat s : List Char) (n : Nat) :
    findSub pat s = Option.some n ↔
      occursAt pat s n ∧ ∀ i, i < n → ¬ occursAt pat s i := by
  induction s generalizing n with
  | nil =>
    by_cases hp : pat.isPrefixOf ([] : List Char) = true
    · have hpat : pat = [] := by simpa using hp
      subst hpat
      simp only [findSub, if_pos hp]
      constructor
      · intro h
        obtain rfl : 0 = n := Option.some.inj h
        exact ⟨by simp [occursAt], fun i hi => absurd hi (by omega)⟩
      · rintro ⟨-, hno⟩
        have hn : n = 0 := by
          by_contra hne
          exact hno 0 (by omega) (by simp [occursAt])
        rw [hn]
    · simp only [findSub, if_neg hp]
      constructor
      · intro h
        exact Option.noConfusion h
      · rintro ⟨hocc, -⟩
        have : pat.isPrefixOf ([] : List Char) = true := by
          have : pat <+: List.drop n [] := hocc
          simpa using this
        exact absurd this hp
  | cons c rest ih =>
    by_cases hp : pat.isPrefixOf (c :: rest) = true
    · simp only [findSub, if_pos hp]
      constructor
      · intro h
        obtain rfl : 0 = n := Option.some.inj h
        exact ⟨by simpa [occursAt] using hp, fun i hi => absurd hi (by omega)⟩
      · rintro ⟨hocc, hno⟩
        have hn : n = 0 := by
          by_contra hne
          exact hno 0 (by omega) (by simpa [occursAt] using hp)
        rw [hn]
    · simp only [findSub, if_neg hp]
      constructor
      · intro h
        obtain ⟨m, hm, hmn⟩ := Option.map_eq_some'.mp h
        obtain ⟨hocc, hno⟩ := (ih m).mp hm
        subst hmn
        refine ⟨by simpa [occursAt] using hocc, ?_⟩
        intro i hi
        cases i with
        | zero =>
          intro habs
          exact hp (by simpa [occursAt] using habs)
        | succ j =>
          intro habs
          exact hno j (by omega) (by simpa [occursAt] using habs)
      · rintro ⟨hocc, hno⟩
        cases n with
        | zero =>
          exact absurd (by simpa [occursAt] using hocc) hp
        | succ m =>
          have hm := (ih m).mpr ⟨by simpa [occursAt] using hocc, ?_⟩
          · rw [Option.map_eq_some']
            exact ⟨m, hm, rfl⟩
          · intro j hj habs
            exact hno (j + 1) (by omega) (by simpa [occursAt] using habs)

/-- `findSub` returns `none` exactly when there is no occurrence. -/
theorem findSub_eq_none_iff (pat s : List Char) :
    findSub pat s = Option.none ↔ ∀ i, ¬ occursAt pat s i := by
  constructor
  · intro hn i hocc
    have hex : ∃ j, occursAt pat s j := ⟨i, hocc⟩
    have hsome := (findSub_eq_some_iff pat s (Nat.find hex)).mpr
      ⟨Nat.find_spec hex, fun j hj => Nat.find_min hex hj⟩
    rw [hsome] at hn
    exact Option.noConfusion hn
  · intro hall
    cases hfs : findSub pat s with
    | none => rfl
    | some n => exact absurd ((findSub_eq_some_iff pat s n).mp hfs).1 (hall n)

/-- An occurrence confined to the left part of an append is an occurrence in
the left part, and conversely. -/
theorem occursAt_append_iff (pat s t : List Char) (i : Nat)
    (h : i + pat.length ≤ s.length) :
    occursAt pat (s ++ t) i ↔ occursAt pat s i := by
  unfold occursAt
  rw [drop_append_of_le i s t (by omega)]
  rw [List.prefix_iff_eq_take, List.prefix_iff_eq_take,
    take_append_of_le pat.length (s.drop i) t (by simp; omega)]

/-- A first occurrence inside `s` stays the first occurrence of `s ++ t`. -/
theorem findSub_append (pat s t : List Char) (n : Nat)
    (hf : findSub pat s = Option.some n) (hb : n + pat.length ≤ s.length) :
    findSub pat (s ++ t) = Option.some n := by
  obtain ⟨hocc, hno⟩ := (findSub_eq_some_iff pat s n).mp hf
  refine (findSub_eq_some_iff pat (s ++ t) n).mpr ⟨?_, ?_⟩
  · exact (occursAt_append_iff pat s t n hb).mpr hocc
  · intro i hi hocc2
    exact hno i hi ((occursAt_append_iff pat s t i (by omega)).mp hocc2)

/-- Interleaving an empty replacement changes nothing. -/
theorem replaceInterleave_nil (s : List Char) : replaceInterleave [] s = s := by
  induction s with
  | nil => rfl
  | cons c rest ih => simp [replaceInterleave, ih]

/-- Replacing a non-empty pattern by itself changes nothing. -/
theorem replaceFuel_self (pat : List Char) (hne : pat ≠ []) :
    ∀ (fuel : Nat) (s : List Char), replaceFuel pat pat fuel s = s := by
  intro fuel
  induction fuel with
  | zero => intro s; cases s <;> rfl
  | succ f ih =>
    intro s
    cases s with
    | nil => rfl
    | cons c rest =>
      by_cases hp : pat.isPrefixOf (c :: rest) = true
      · simp only [replaceFuel, if_pos hp, ih]
        obtain ⟨p, ps, rfl⟩ : ∃ p ps, pat = p :: ps := by
          cases pat with
          | nil => exact absurd rfl hne
          | cons p ps => exact ⟨p, ps, rfl⟩
        have hpre : (p :: ps) <+: (c :: rest) := by simpa using hp
        obtain ⟨tail, htail⟩ := hpre
        obtain ⟨rfl, rfl⟩ : p = c ∧ ps ++ tail = rest := by simpa using htail
        simp [List.drop_left]
      · simp only [replaceFuel, if_neg hp, ih]

/-- The replacement scan leaves a pattern-free string unchanged. -/
theorem replaceFuel_no_occ (pat rep : List Char) :
    ∀ (fuel : Nat) (s : List Char), (∀ i, ¬ occursAt pat s i) →
      replaceFuel pat rep fuel s = s := by
  intro fuel
  induction fuel with
  | zero => intro s _; cases s <;> rfl
  | succ f ih =>
    intro s hno
    cases s with
    | nil => rfl
    | cons c rest =>
      have hp : ¬ pat.isPrefixOf (c :: rest) = true := by
        intro hp
        exact hno 0 (by simpa [occursAt] using hp)
      simp only [replaceFuel, if_neg hp]
      rw [ih rest (fun i habs => hno (i + 1) (by simpa [occursAt] using habs))]

/-- The replacement scan on a string containing exactly one occurrence of the
pattern rewrites that occurrence and nothing else. -/
theorem replaceFuel_single (pat rep b : List Char) (hne : pat ≠ [])
    (hpost : ∀ i, ¬ occursAt pat b i) :
    ∀ (a : List Char) (fuel : Nat),
      (∀ i, i < a.length → ¬ occursAt pat (a ++ (pat ++ b)) i) →
      a.length + pat.length + b.length ≤ fuel →
      replaceFuel pat rep fuel (a ++ (pat ++ b)) = a ++ (rep ++ b) := by
  intro a
  induction a with
  | nil =>
    intro fuel hpre hfuel
    obtain ⟨p, ps, rfl⟩ : ∃ p ps, pat = p :: ps := by
      cases pat with
      | nil => exact absurd rfl hne
      | cons p ps => exact ⟨p, ps, rfl⟩
    cases fuel with
    | zero =>
      simp only [List.length_nil, List.length_cons] at hfuel
      omega
    | succ f =>
      have hp : (p :: ps).isPrefixOf (p :: (ps ++ b)) = true := by
        simp
      simp only [List.nil_append, List.cons_append, replaceFuel, List.append_eq,
        if_pos hp]
      rw [show (p :: ps).length - 1 = ps.length from rfl, List.drop_left]
      rw [replaceFuel_no_occ (p :: ps) rep f b hpost]
  | cons c a' ih =>
    intro fuel hpre hfuel
    cases fuel with
    | zero =>
      simp only [List.length_cons] at hfuel
      omega
    | succ f =>
      have hp : ¬ pat.isPrefixOf (c :: (a' ++ (pat ++ b))) = true := by
        intro hp
        exact hpre 0 (by simp) (by simpa [occursAt] using hp)
      simp only [List.cons_append, replaceFuel, List.append_eq, if_neg hp]
      rw [ih f ?_ ?_]
      · intro i hi habs
        exact hpre (i + 1) (by simp; omega) (by simpa [occursAt] using habs)
      · simp only [List.length_cons] at hfuel
        omega

/-- `str.replace` on a string with a unique occurrence of a non-empty
pattern splices the replacement in place. -/
theorem pyReplaceChars_single (pat rep a b : List Char) (hne : pat ≠ [])
    (hpre : ∀ i, i < a.length → ¬ occursAt pat (a ++ (pat ++ b)) i)
    (hpost : ∀ i, ¬ occursAt pat b i) :
    pyReplaceChars (a ++ (pat ++ b)) pat rep = a ++ (rep ++ b) := by
  unfold pyReplaceChars
  rw [if_neg hne]
  exact replaceFuel_single pat rep b hne hpost a (a ++ (pat ++ b)).length hpre
    (by simp only [List.length_append]; omega)

/-- `str.replace` with identical pattern and replacement is the identity. -/
theorem pyReplaceChars_self (s pat : List Char) : pyReplaceChars s pat pat = s := by
  unfold pyReplaceChars
  by_cases hne : pat = []
  · rw [if_pos hne, hne]
    exact replaceInterleave_nil s
  · rw [if_neg hne]
    exact replaceFuel_self pat hne s.length s

/-- Slicing out the middle third of a three-part append. -/
theorem pySlice_middle {α : Type} (x y z : List α) :
    pySliceChars (x ++ y ++ z) x.length (x.length + y.length) = y := by
  unfold pySliceChars
  rw [take_append_of_le (x.length + y.length) (x ++ y) z (by simp),
    ← List.length_append, List.take_length, List.drop_left]

/-- The start marker is never the empty string. -/
theorem startMarker_data_ne_nil (marker : String) : (startMarker marker).data ≠ [] := by
  intro h
  have hlen : (startMarker marker).data.length = 0 := by rw [h]; rfl
  rw [show (startMarker marker).data = "[](#Start".data ++ marker.data ++ ")".data
    from rfl] at hlen
  simp at hlen

/-- String length is the length of the underlying character list. -/
theorem string_length_data (s : String) : s.length = s.data.length := rfl

/-- Key splice lemma: when the first start marker sits at the end of `pre`,
the first end marker right after the block `M`, and the start marker never
recurs in `post`, `update_reddit_descr` rewrites exactly the delimited block. -/
theorem update_splice_key (pre post text marker descr : String) (M : List Char)
    (h1 : pyFind (pre ++ startMarker marker) (startMarker marker) =
      Option.some pre.length)
    (h3 : pyFind post (startMarker marker) = Option.none)
    (hdata : descr.data = pre.data ++ (startMarker marker).data ++ M ++
      (endMarker marker).data ++ post.data)
    (h2 : findSub (endMarker marker).data
        ((pre.data ++ (startMarker marker).data ++ M) ++ (endMarker marker).data) =
      Option.some (pre.data ++ (startMarker marker).data ++ M).length) :
    update_reddit_descr descr text marker = pre ++ splicedBlock text marker ++ post := by
  have hd3 : descr.data = pre.data ++
      (((startMarker marker).data ++ M ++ (endMarker marker).data) ++ post.data) := by
    rw [hdata]
    simp only [List.append_assoc]
  have hSMB : (startMarker marker).data <+:
      (startMarker marker).data ++ M ++ (endMarker marker).data :=
    (List.prefix_append (startMarker marker).data M).trans
      (List.prefix_append ((startMarker marker).data ++ M) (endMarker marker).data)
  have h1' : findSub (startMarker marker).data
      (pre.data ++ (startMarker marker).data) = Option.some pre.data.length := by
    unfold pyFind at h1
    rw [String.data_append] at h1
    rw [string_length_data] at h1
    exact h1
  have hf1 : pyFind descr (startMarker marker) = Option.some pre.length := by
    unfold pyFind
    rw [hdata, string_length_data]
    have hext := findSub_append (startMarker marker).data
      (pre.data ++ (startMarker marker).data)
      (M ++ (endMarker marker).data ++ post.data) pre.data.length h1'
      (by simp only [List.length_append]; omega)
    simp only [List.append_assoc] at hext ⊢
    exact hext
  have hf2 : pyFind descr (endMarker marker) =
      Option.some (pre.data ++ (startMarker marker).data ++ M).length := by
    unfold pyFind
    rw [hdata]
    have hext := findSub_append (endMarker marker).data
      ((pre.data ++ (startMarker marker).data ++ M) ++ (endMarker marker).data)
      post.data (pre.data ++ (startMarker marker).data ++ M).length h2
      (by simp only [List.length_append]; omega)
    simp only [List.append_assoc] at hext ⊢
    exact hext
  have hno_sm : ∀ i, i < pre.data.length →
      ¬ occursAt (startMarker marker).data descr.data i := by
    have hfd : findSub (startMarker marker).data descr.data =
        Option.some pre.data.length := by
      have hh := hf1
      unfold pyFind at hh
      rw [string_length_data] at hh
      exact hh
    exact ((findSub_eq_some_iff _ _ _).mp hfd).2
  have hBne : (startMarker marker).data ++ M ++ (endMarker marker).data ≠ [] := by
    intro hB
    simp only [List.append_eq_nil] at hB
    exact startMarker_data_ne_nil marker hB.1.1
  have hpre : ∀ i, i < pre.data.length →
      ¬ occursAt ((startMarker marker).data ++ M ++ (endMarker marker).data)
        (pre.data ++ (((startMarker marker).data ++ M ++ (endMarker marker).data) ++
          post.data)) i := by
    intro i hi hocc
    apply hno_sm i hi
    rw [hd3]
    exact hSMB.trans hocc
  have hpost : ∀ i, ¬ occursAt
      ((startMarker marker).data ++ M ++ (endMarker marker).data) post.data i := by
    intro i hocc
    have hnone : findSub (startMarker marker).data post.data = Option.none := h3
    exact (findSub_eq_none_iff _ _).mp hnone i (hSMB.trans hocc)
  have hslice : pySliceChars descr.data pre.length
      ((pre.data ++ (startMarker marker).data ++ M).length +
        (endMarker marker).length) =
      (startMarker marker).data ++ M ++ (endMarker marker).data := by
    have hd2 : descr.data = pre.data ++
        ((startMarker marker).data ++ M ++ (endMarker marker).data) ++ post.data := by
      rw [hdata]
      simp only [List.append_assoc]
    have harg : (pre.data ++ (startMarker marker).data ++ M).length +
        (endMarker marker).length =
        pre.data.length +
          ((startMarker marker).data ++ M ++ (endMarker marker).data).length := by
      simp only [List.length_append, string_length_data]
      omega
    rw [hd2, harg]
    exact pySlice_middle pre.data _ post.data
  simp only [update_reddit_descr]
  rw [hf1, hf2]
  apply String.ext
  show pyReplaceChars descr.data
      (pySliceChars descr.data pre.length
        ((pre.data ++ (startMarker marker).data ++ M).length +
          (endMarker marker).length))
      (splicedBlock text marker).data =
    (pre ++ splicedBlock text marker ++ post).data
  rw [hslice, hd3,
    pyReplaceChars_single _ _ _ _ hBne hpre hpost]
  simp only [String.data_append, List.append_assoc]

/-- Claim C10 (amended): sidebar splice safety.  If either marker is absent
from the description, `update_reddit_descr` returns it completely unchanged.
When the description has the form `pre ++ start ++ mid ++ end ++ post` with
the first start marker at the end of `pre`, the first end marker right after
`mid`, the start marker not recurring in `post`, and the freshly spliced text
containing no earlier end marker, the result is exactly the description with
the block replaced — it contains both markers with exactly the new text
between them — and a second application leaves that result unchanged. -/
theorem c10_sidebar_splice :
    (∀ descr text marker : String,
      (pyFind descr (startMarker marker) = Option.none ∨
       pyFind descr (endMarker marker) = Option.none) →
      update_reddit_descr descr text marker = descr) ∧
    (∀ pre mid post text marker : String,
      pyFind (pre ++ startMarker marker) (startMarker marker) =
        Option.some pre.length →
      pyFind (pre ++ startMarker marker ++ mid ++ endMarker marker)
          (endMarker marker) =
        Option.some (pre ++ startMarker marker ++ mid).length →
      pyFind post (startMarker marker) = Option.none →
      pyFind (pre ++ startMarker marker ++ "\n\n" ++ text ++ "\n\n" ++
          endMarker marker) (endMarker marker) =
        Option.some (pre ++ startMarker marker ++ "\n\n" ++ text ++ "\n\n").length →
      update_reddit_descr (pre ++ startMarker marker ++ mid ++ endMarker marker ++ post)
          text marker = pre ++ splicedBlock text marker ++ post ∧
      update_reddit_descr (pre ++ splicedBlock text marker ++ post) text marker =
        pre ++ splicedBlock text marker ++ post) := by
  constructor
  · intro descr text marker h
    simp only [update_reddit_descr]
    rcases h with h | h
    · rw [h]
    · cases hx : pyFind descr (startMarker marker) with
      | none => rfl
      | some s0 => rw [h]
  · intro pre mid post text marker H1 H2 H3 H4
    constructor
    · apply update_splice_key pre post text marker _ mid.data H1 H3
      · rfl
      · unfold pyFind at H2
        rw [string_length_data] at H2
        simp only [String.data_append] at H2
        exact H2
    · apply update_splice_key pre post text marker _
        (("\n\n" ++ text ++ "\n\n") : String).data H1 H3
      · simp only [splicedBlock, String.data_append, List.append_assoc]
      · unfold pyFind at H4
        rw [string_length_data] at H4
        simp only [String.data_append, List.append_assoc] at H4 ⊢
        convert H4 using 2

/-- Claim C10 counterexample: when the replacement text itself contains the
end marker, a second application splices again — idempotence fails. -/
theorem c10_counterexample :
    update_reddit_descr
        (update_reddit_descr "A[](#StartM)B[](#EndM)C" "[](#EndM)" "M")
        "[](#EndM)" "M" ≠
      update_reddit_descr "A[](#StartM)B[](#EndM)C" "[](#EndM)" "M" := by
  decide

/-- Claim C10 witness. -/
theorem c10_witness :
    update_reddit_descr ("A" ++ startMarker "M" ++ "B" ++ endMarker "M" ++ "C")
        "T" "M" = "A" ++ splicedBlock "T" "M" ++ "C" ∧
    update_reddit_descr ("A" ++ splicedBlock "T" "M" ++ "C") "T" "M" =
      "A" ++ splicedBlock "T" "M" ++ "C" ∧
    update_reddit_descr "no markers here" "T" "M" = "no markers here" :=
  ⟨(c10_sidebar_splice.2 "A" "B" "C" "T" "M" (by decide) (by decide) (by decide)
      (by decide)).1,
   (c10_sidebar_splice.2 "A" "B" "C" "T" "M" (by decide) (by decide) (by decide)
      (by decide)).2,
   c10_sidebar_splice.1 "no markers here" "T" "M" (Or.inl (by decide))⟩
